import Mathlib

/-!
Macarons: `Versioning/Branch.cpp`

A shallow embedding of `Macarons::Branch` (a thin wrapper over libgit2) and a
study of its display-name, activity, upstream, history, commit and reset
operations.

* `std::string` is a `List Char`; `std::string::npos` is `none`.
* libgit2 return codes are `Int`; an out-parameter that a failed call leaves
  unwritten is `none` (an indeterminate C++ value).
* libgit2 itself is not part of the repository: what its calls answer is
  supplied to the model as data (`Repository`) or as a function argument.
-/

namespace Macarons

/-! ## `std::string` -/

/-- The `std::string::find(pat)` of the C++ library: the least position at which
`pat` occurs in `s`, `none` standing for `npos`. -/
def find : List Char → List Char → Option Nat
  | [], pat => if pat.isPrefixOf [] then some 0 else none
  | c :: t, pat =>
    if pat.isPrefixOf (c :: t) then some 0 else (find t pat).map (· + 1)

/-- The `std::string::erase(pos, len)` of the C++ library, for `pos ≤ size`:
drops the (at most) `len` characters that start at `pos`. -/
def erase (s : List Char) (pos len : Nat) : List Char :=
  s.take pos ++ s.drop (pos + len)

/-- The literal `"refs/heads/"` of `Branch::GetDisplayName`. -/
def headsPrefix : List Char := "refs/heads/".toList

/-- The literal `"refs/remotes/"` of `Branch::GetDisplayName`. -/
def remotesPrefix : List Char := "refs/remotes/".toList

/-- `Branch::GetDisplayName` (Branch.cpp 15-38), as a function of the reference
name that `GetName()` returns. -/
def GetDisplayName (name : List Char) : List Char :=
  -- Erase the heads prefix
  let toErase := headsPrefix
  match find name toErase with
  | some found => erase name found toErase.length
  | none =>
    -- Erase the remotes prefix
    let toErase := remotesPrefix
    match find name toErase with
    | some found => erase name found toErase.length
    | none => name

/-! ## libgit2, as far as `Branch.cpp` calls it -/

/-- An object id (`git_oid`). -/
abbrev git_oid := Nat

/-- A `git_commit*` that a successful `git_commit_lookup` produced. -/
structure git_commit where
  id : git_oid
  deriving DecidableEq, Repr

/-- A `git_reference*`: a handle on the reference of that full name. -/
structure git_reference where
  name : String
  deriving DecidableEq, Repr

/-- A `git_signature*`. -/
structure git_signature where
  name : String
  email : String
  deriving DecidableEq, Repr

/-- The success code, `GIT_ERROR_NONE = 0` (git2/errors.h). -/
def GIT_ERROR_NONE : Int := 0

/-- The not-found code, `GIT_ENOTFOUND = -3` (git2/errors.h). -/
def GIT_ENOTFOUND : Int := -3

/-- `GIT_SORT_TOPOLOGICAL = 1 << 0` (git2/revwalk.h). -/
def GIT_SORT_TOPOLOGICAL : Nat := 1

/-- `GIT_SORT_TIME = 1 << 1` (git2/revwalk.h). -/
def GIT_SORT_TIME : Nat := 2

/-- The reset kinds of git2/reset.h. -/
inductive git_reset_t where
  | GIT_RESET_SOFT
  | GIT_RESET_MIXED
  | GIT_RESET_HARD
  deriving DecidableEq, Repr

/-- The fields of `git_checkout_options` (git2/checkout.h) that `git_reset` reads
first: the structure version, which must be `1`, and the checkout strategy. -/
structure git_checkout_options where
  version : Nat
  checkout_strategy : Nat
  deriving DecidableEq, Repr

/-- The state of a repository that the calls of `Branch.cpp` read or move:
the commits of the object database, the direct references with the commit each
points at, the reference `HEAD` symbolically points at, and the trees the index
and the working directory hold. -/
structure Repository where
  commits : List git_oid
  refs : List (String × git_oid)
  HEAD : String
  index : Nat
  workdir : Nat
  deriving DecidableEq, Repr

/-- `git_reference_name_to_id(&out, repo, name)`: the return code and `out`, which
is written only on success. `"HEAD"` is followed to the reference it points at;
with no commit yet that reference does not exist and the lookup fails. -/
def git_reference_name_to_id (repo : Repository) (name : String) : Int × Option git_oid :=
  match repo.refs.lookup (if name = "HEAD" then repo.HEAD else name) with
  | some oid => (GIT_ERROR_NONE, some oid)
  | none => (GIT_ENOTFOUND, none)

/-- `git_commit_lookup(&commit, repo, &oid)` with its return code dropped, as every
caller in `Branch.cpp` that reads `commit` does: `commit` is written only when
`oid` names a commit of the repository; an `oid` that was never written (`none`)
names none. -/
def git_commit_lookup (repo : Repository) (oid : Option git_oid) : Option git_commit :=
  match oid with
  | some o => if o ∈ repo.commits then some ⟨o⟩ else none
  | none => none

/-- A `git_revwalk*`: the sorting mode and the commits pushed as starting points. -/
structure git_revwalk where
  sorting : Nat
  pushed : List git_oid
  deriving DecidableEq, Repr

/-- `git_revwalk_new`. -/
def git_revwalk_new : git_revwalk := ⟨0, []⟩

/-- `git_revwalk_sorting(walk, mode)`. -/
def git_revwalk_sorting (walk : git_revwalk) (mode : Nat) : git_revwalk :=
  { walk with sorting := mode }

/-- `git_revwalk_push_head(walk)`: pushes the commit `HEAD` resolves to as a
starting point; pushes nothing when `HEAD` does not resolve. -/
def git_revwalk_push_head (repo : Repository) (walk : git_revwalk) : git_revwalk :=
  match (git_reference_name_to_id repo "HEAD").2 with
  | some oid => { walk with pushed := oid :: walk.pushed }
  | none => walk

/-- The arguments of one `git_commit_create` call, after `id` and `repo`. A
pointer that no call has written is `none`. -/
structure git_commit_create_args where
  update_ref : String
  author : Option git_signature
  committer : Option git_signature
  message_encoding : String
  message : String
  tree : Option git_oid
  parent_count : Nat
  parents : List (Option git_commit)
  deriving DecidableEq, Repr

/-- The libgit2 calls whose answers `Branch.cpp` takes as they come:
* `revwalk_next`: the ids that successive `git_revwalk_next` calls on a walker
  return before the walk is over, in that order;
* `git_reset`: the repository after `git_reset(repo, target, type, opts)`, where
  `opts` is `none` for `nullptr`;
* `git_index_write_tree`: the tree written from the index, looked up;
* `git_signature_now`, `git_commit_create`: return code, out-parameter (and the
  repository afterwards);
* `git_branch_is_head`, `git_branch_upstream`: return code (and out-parameter). -/
structure Git2 where
  revwalk_next : Repository → git_revwalk → List git_oid
  git_reset : Repository → Option git_commit → git_reset_t →
    Option git_checkout_options → Repository
  git_index_write_tree : Repository → Option git_oid
  git_signature_now : String → String → Int × Option git_signature
  git_commit_create : Repository → git_commit_create_args → Int × Option git_oid × Repository
  git_branch_is_head : Repository → git_reference → Int
  git_branch_upstream : Repository → git_reference → Int × git_reference

/-! ## `Macarons::Branch` -/

/-- `BranchType` (Branch.h). -/
inductive BranchType where
  | Local
  | Remote
  deriving DecidableEq, Repr

/-- `Macarons::Branch`: the wrapped reference and the branch type. The
`m_Repository` back-reference is the `Repository` the operations below take. -/
structure Branch where
  m_Reference : git_reference
  m_BranchType : BranchType
  deriving DecidableEq, Repr

/-- `Macarons::Commit`, as `Commit(commit, this)` builds it: the looked-up commit
and the branch it was read through. -/
structure Commit where
  m_Commit : Option git_commit
  m_Branch : Branch
  deriving DecidableEq, Repr

/-- `GitUser`: the `Name` and `Email` that `CreateCommit` reads. -/
structure GitUser where
  Name : String
  Email : String
  deriving DecidableEq, Repr

/-- Modelled from the spec: the macro `MR_CORE_ASSERT(x, msg)`, which `Branch.cpp`
uses and the precompiled header declares. By the spec a failed assertion is fatal
(an invariant violation, not a recoverable result): the operation stops with the
message. -/
def MR_CORE_ASSERT (x : Bool) (msg : String) : Except String Unit :=
  if x then .ok () else .error msg

/-- The C++ conversion of an `int` to `bool`: every non-zero value is `true`. -/
def intToBool (i : Int) : Bool := i != 0

/-- `Branch::IsActive` (Branch.cpp 40-43): the `int` of `git_branch_is_head`,
returned as `bool`. -/
def IsActive (lib : Git2) (repo : Repository) (this : Branch) : Bool :=
  intToBool (lib.git_branch_is_head repo this.m_Reference)

/-- `Branch::IsTrackingRemote` (Branch.cpp 45-50). -/
def IsTrackingRemote (lib : Git2) (repo : Repository) (this : Branch) : Bool :=
  -- If we have an upstream, then the branch is tracking a remote.
  (lib.git_branch_upstream repo this.m_Reference).1 == GIT_ERROR_NONE

/-- `Branch::GetUpstream` (Branch.cpp 52-66). -/
def GetUpstream (lib : Git2) (repo : Repository) (this : Branch) :
    Except String (Option Branch) :=
  let (result, upstream) := lib.git_branch_upstream repo this.m_Reference
  if result = GIT_ENOTFOUND then
    .ok none
  else do
    MR_CORE_ASSERT (result == GIT_ERROR_NONE) "Could not retrieve upstream branch"
    return some ⟨upstream, BranchType.Remote⟩

/-- The walker `Branch::GetCommits` iterates (Branch.cpp 85-88). -/
def GetCommits.walk (repo : Repository) : git_revwalk :=
  let walk := git_revwalk_new
  let walk := git_revwalk_sorting walk (GIT_SORT_TOPOLOGICAL ||| GIT_SORT_TIME)
  git_revwalk_push_head repo walk

/-- The `while (!git_revwalk_next(&oid, walk))` loop of `Branch::GetCommits`
(Branch.cpp 92-98), over the ids the walker still has to return. -/
def GetCommits.loop (repo : Repository) (this : Branch) :
    List git_oid → List Commit → List Commit
  | [], result => result
  | oid :: rest, result =>
    let commit := git_commit_lookup repo (some oid)
    GetCommits.loop repo this rest (result ++ [⟨commit, this⟩])

/-- `Branch::GetCommits` (Branch.cpp 81-103). -/
def GetCommits (lib : Git2) (repo : Repository) (this : Branch) : List Commit :=
  let result : List Commit := []
  let walk := GetCommits.walk repo
  GetCommits.loop repo this (lib.revwalk_next repo walk) result

/-- The arguments `Branch::CreateCommit` hands to `git_commit_create`
(Branch.cpp 107-137); an error when the assertion before the call fails. -/
def CreateCommit.args (lib : Git2) (repo : Repository) (author : GitUser)
    (message : String) : Except String git_commit_create_args := do
  /- Write the index to a tree index, get the tree -/
  let tree := lib.git_index_write_tree repo
  /- Get HEAD as a commit object to use as the parent of the commit -/
  let parentId := (git_reference_name_to_id repo "HEAD").2
  let parent := git_commit_lookup repo parentId
  /- Create the commit signature -/
  let (error, user) := lib.git_signature_now author.Name author.Email
  MR_CORE_ASSERT (error == GIT_ERROR_NONE) "Could not sign commit"
  /- Create the commit -/
  let parents := [parent]
  return ⟨"HEAD", user, user, "UTF-8", message, tree, 1, parents⟩

/-- `Branch::CreateCommit` (Branch.cpp 105-148): the commit returned and the
repository afterwards. -/
def CreateCommit (lib : Git2) (repo : Repository) (this : Branch) (author : GitUser)
    (message : String) : Except String (Commit × Repository) := do
  let args ← CreateCommit.args lib repo author message
  let (error, commitId, repo) := lib.git_commit_create repo args
  MR_CORE_ASSERT (error == GIT_ERROR_NONE) "Could not create commit"
  let commit := git_commit_lookup repo commitId
  return (⟨commit, this⟩, repo)

/-- `Branch::Reset` (Branch.cpp 150-170): the repository afterwards. The local
`git_checkout_options opts` is declared without an initialiser, so what it holds
is an input, `opts`. -/
def Reset (lib : Git2) (repo : Repository) (this : Branch) (hard : Bool)
    (opts : git_checkout_options) : Repository :=
  let commits := GetCommits lib repo this
  if commits.isEmpty then
    repo
  else
    match commits.getLast? with
    | none => repo
    | some back =>
      let lastCommit := back.m_Commit
      if hard then
        lib.git_reset repo lastCommit git_reset_t.GIT_RESET_HARD (some opts)
      else
        lib.git_reset repo lastCommit git_reset_t.GIT_RESET_MIXED none

/-! ## Concrete repositories

libgit2 on repositories whose history is linear: commit `k + 1` has the single
parent `k`, and commit `1` is the root. -/

/-- The walk from commit `k` of a linear history: `k` and then its ancestors,
newest first. -/
def linearHistory : Nat → List git_oid
  | 0 => []
  | k + 1 => (k + 1) :: linearHistory k

/-- Repoints the reference `name` at `oid`. -/
def setRef (refs : List (String × git_oid)) (name : String) (oid : git_oid) :
    List (String × git_oid) :=
  (name, oid) :: refs.filter (fun r => r.1 != name)

/-- The libgit2 answers on a repository with linear history: a walk returns
everything reachable from the newest starting point; a reset fails, changing
nothing, on checkout options of a version other than `1`, and otherwise moves the
branch `HEAD` points at to the target, realigns the index, and overwrites the
working directory when hard; the tree of commit `k` is `k`; no branch has an
upstream. -/
def linearGit2 : Git2 where
  revwalk_next := fun _ walk => linearHistory (walk.pushed.foldl max 0)
  git_reset := fun repo target type opts =>
    match target with
    | none => repo
    | some c =>
      if opts.any (fun o => o.version != 1) then
        repo
      else
        { repo with
          refs := setRef repo.refs repo.HEAD c.id
          index := c.id
          workdir := if type = git_reset_t.GIT_RESET_HARD then c.id else repo.workdir }
  git_index_write_tree := fun repo => some repo.index
  git_signature_now := fun name email => (GIT_ERROR_NONE, some ⟨name, email⟩)
  git_commit_create := fun repo args =>
    if args.parents.take args.parent_count = List.replicate args.parent_count none then
      (-1, none, repo)
    else
      let id := repo.commits.length + 1
      (GIT_ERROR_NONE, some id,
        { repo with commits := id :: repo.commits, refs := setRef repo.refs repo.HEAD id })
  git_branch_is_head := fun repo ref => if ref.name = repo.HEAD then 1 else 0
  git_branch_upstream := fun _ ref => (GIT_ENOTFOUND, ref)

/-- The same answers, except that `HEAD` cannot be read: `git_branch_is_head`
fails with `-1`. -/
def unreadableHeadGit2 : Git2 :=
  { linearGit2 with git_branch_is_head := fun _ _ => -1 }

/-- The same answers, except that the upstream lookup fails with the code `-1`,
which is neither success nor not-found. -/
def brokenUpstreamGit2 : Git2 :=
  { linearGit2 with git_branch_upstream := fun _ ref => (-1, ref) }

/-- The same answers, except that every branch tracks `refs/remotes/origin/main`. -/
def trackingGit2 : Git2 :=
  { linearGit2 with
    git_branch_upstream := fun _ _ => (GIT_ERROR_NONE, ⟨"refs/remotes/origin/main"⟩) }

/-- A freshly initialised repository: no commit, `HEAD` points at a branch that
does not exist yet. -/
def emptyRepo : Repository :=
  { commits := [], refs := [], HEAD := "refs/heads/master", index := 0, workdir := 0 }

/-- Three commits `1 ← 2 ← 3`; `main` is checked out at `2`, `dev` is at `3`;
the working directory has uncommitted changes (tree `7`). -/
def twoBranchRepo : Repository :=
  { commits := [3, 2, 1]
    refs := [("refs/heads/main", 2), ("refs/heads/dev", 3)]
    HEAD := "refs/heads/main"
    index := 2
    workdir := 7 }

/-- The branch `master` of `emptyRepo`. -/
def masterBranch : Branch := ⟨⟨"refs/heads/master"⟩, BranchType.Local⟩

/-- The branch `main` of `twoBranchRepo`. -/
def mainBranch : Branch := ⟨⟨"refs/heads/main"⟩, BranchType.Local⟩

/-- The branch `dev` of `twoBranchRepo`. -/
def devBranch : Branch := ⟨⟨"refs/heads/dev"⟩, BranchType.Local⟩

/-- An author. -/
def someUser : GitUser := ⟨"Ada", "ada@example.org"⟩

/-! ## Facts about `find` and `erase` -/

theorem find_some_spec (pat : List Char) :
    ∀ (s : List Char) (i : Nat), find s pat = some i →
      ∃ pre post, s = pre ++ pat ++ post ∧ pre.length = i ∧
        ∀ j, j < i → ¬ pat <+: s.drop j := by
  intro s
  induction s with
  | nil =>
    intro i h
    unfold find at h
    split at h
    · rename_i hp
      injection h with h
      subst h
      rw [List.isPrefixOf_iff_prefix] at hp
      obtain ⟨post, hpost⟩ := hp
      exact ⟨[], post, by simpa using hpost.symm, rfl, by intro j hj; omega⟩
    · cases h
  | cons c t ih =>
    intro i h
    unfold find at h
    split at h
    · rename_i hp
      injection h with h
      subst h
      rw [List.isPrefixOf_iff_prefix] at hp
      obtain ⟨post, hpost⟩ := hp
      exact ⟨[], post, by simpa using hpost.symm, rfl, by intro j hj; omega⟩
    · rename_i hp
      cases hf : find t pat with
      | none => rw [hf] at h; cases h
      | some k =>
        rw [hf] at h
        simp only [Option.map_some', Option.some.injEq] at h
        subst h
        obtain ⟨pre, post, hs, hlen, hmin⟩ := ih k hf
        refine ⟨c :: pre, post, by simp [hs], by simp [hlen], ?_⟩
        intro j hj
        cases j with
        | zero =>
          simp only [List.drop_zero]
          intro hpre
          exact hp (List.isPrefixOf_iff_prefix.mpr hpre)
        | succ j =>
          simp only [List.drop_succ_cons]
          exact hmin j (by omega)

theorem find_none_spec (pat : List Char) :
    ∀ (s : List Char), find s pat = none → ¬ pat <:+: s := by
  intro s
  induction s with
  | nil =>
    intro h hinf
    unfold find at h
    split at h
    · cases h
    · rename_i hp
      apply hp
      rw [List.isPrefixOf_iff_prefix]
      have : pat = [] := by simpa using hinf
      simp [this]
  | cons c t ih =>
    intro h hinf
    unfold find at h
    split at h
    · cases h
    · rename_i hp
      have ht : find t pat = none := by
        cases hf : find t pat with
        | none => rfl
        | some k => rw [hf] at h; cases h
      rw [List.infix_cons_iff] at hinf
      rcases hinf with hpre | hinf
      · exact hp (List.isPrefixOf_iff_prefix.mpr hpre)
      · exact ih ht hinf

theorem find_isSome_of_occurs (pat s : List Char) (h : pat <:+: s) :
    ∃ i, find s pat = some i := by
  cases hf : find s pat with
  | none => exact absurd h (find_none_spec pat s hf)
  | some i => exact ⟨i, rfl⟩

theorem find_eq_none_of_absent (pat s : List Char) (h : ¬ pat <:+: s) :
    find s pat = none := by
  cases hf : find s pat with
  | none => rfl
  | some i =>
    obtain ⟨pre, post, hs, _, _⟩ := find_some_spec pat s i hf
    exact absurd ⟨pre, post, hs.symm⟩ h

theorem erase_append (pre pat post : List Char) :
    erase (pre ++ pat ++ post) pre.length pat.length = pre ++ post := by
  unfold erase
  rw [List.append_assoc, List.take_left, ← List.append_assoc, ← List.length_append,
    List.drop_left]

/-- What one `find`-then-`erase` step of `GetDisplayName` computes when the
pattern occurs: the text around the first occurrence. -/
theorem erase_find_spec (pat s : List Char) (i : Nat) (h : find s pat = some i) :
    ∃ pre post, s = pre ++ pat ++ post ∧
      (∀ j, j < pre.length → ¬ pat <+: s.drop j) ∧
      erase s i pat.length = pre ++ post ∧
      (erase s i pat.length).length + pat.length = s.length := by
  obtain ⟨pre, post, hs, hlen, hmin⟩ := find_some_spec pat s i h
  refine ⟨pre, post, hs, ?_, ?_, ?_⟩
  · intro j hj
    exact hmin j (by omega)
  · rw [← hlen]
    conv_lhs => rw [hs]
    exact erase_append pre pat post
  · rw [← hlen]
    conv_lhs => rw [hs]
    rw [erase_append, hs]
    simp only [List.length_append]
    omega

/-! ## Facts about the operations -/

theorem GetCommits_loop_eq (repo : Repository) (this : Branch) :
    ∀ (oids : List git_oid) (result : List Commit),
      GetCommits.loop repo this oids result =
        result ++ oids.map (fun oid => ⟨git_commit_lookup repo (some oid), this⟩) := by
  intro oids
  induction oids with
  | nil => intro result; simp [GetCommits.loop]
  | cons oid rest ih => intro result; simp [GetCommits.loop, ih]

/-- `GetCommits` returns, in the order of the walk, one commit per id the walker
returns. -/
theorem GetCommits_eq_map (lib : Git2) (repo : Repository) (this : Branch) :
    GetCommits lib repo this =
      (lib.revwalk_next repo (GetCommits.walk repo)).map
        (fun oid => ⟨git_commit_lookup repo (some oid), this⟩) := by
  simp [GetCommits, GetCommits_loop_eq]

/-- Every commit `GetCommits` returns carries the branch it was called on. -/
theorem GetCommits_back_reference (lib : Git2) (repo : Repository) (this : Branch)
    (c : Commit) (hc : c ∈ GetCommits lib repo this) : c.m_Branch = this := by
  rw [GetCommits_eq_map, List.mem_map] at hc
  obtain ⟨oid, _, rfl⟩ := hc
  rfl

/-- The walker of `GetCommits` starts at what `HEAD` resolves to, whatever the
branch. -/
theorem GetCommits_walk_pushed (repo : Repository) :
    (GetCommits.walk repo).pushed = ((git_reference_name_to_id repo "HEAD").2).toList := by
  unfold GetCommits.walk git_revwalk_push_head
  cases (git_reference_name_to_id repo "HEAD").2 <;> rfl

/-- On a non-empty history `Reset` resets to the commit the walk returned last. -/
theorem Reset_eq_git_reset_last (lib : Git2) (repo : Repository) (this : Branch)
    (hard : Bool) (opts : git_checkout_options) (init : List Commit) (back : Commit)
    (h : GetCommits lib repo this = init ++ [back]) :
    Reset lib repo this hard opts =
      lib.git_reset repo back.m_Commit
        (if hard then git_reset_t.GIT_RESET_HARD else git_reset_t.GIT_RESET_MIXED)
        (if hard then some opts else none) := by
  unfold Reset
  simp only [h, List.getLast?_append, List.getLast?_singleton]
  cases hard <;> simp

/-- Whatever the lookups answer, the parent count handed to `git_commit_create`
is the literal `1`. -/
theorem CreateCommit_args_parent_count (lib : Git2) (repo : Repository) (author : GitUser)
    (message : String) (a : git_commit_create_args)
    (h : CreateCommit.args lib repo author message = .ok a) : a.parent_count = 1 := by
  unfold CreateCommit.args MR_CORE_ASSERT at h
  simp only [bind, Except.bind, pure, Except.pure] at h
  split at h
  · cases h
  · injection h with h
    rw [← h]

/-- `IsActive` is true for every non-zero answer of `git_branch_is_head`. -/
theorem IsActive_iff_ne_zero (lib : Git2) (repo : Repository) (this : Branch) :
    IsActive lib repo this = true ↔ lib.git_branch_is_head repo this.m_Reference ≠ 0 := by
  simp [IsActive, intToBool]

/-- `GetUpstream` and `IsTrackingRemote` on a branch with no upstream, on a lookup
that fails otherwise, and on a branch that tracks a remote branch. -/
theorem GetUpstream_examples :
    (GetUpstream linearGit2 twoBranchRepo mainBranch = .ok none ∧
      IsTrackingRemote linearGit2 twoBranchRepo mainBranch = false) ∧
    (GetUpstream brokenUpstreamGit2 twoBranchRepo mainBranch =
        .error "Could not retrieve upstream branch" ∧
      IsTrackingRemote brokenUpstreamGit2 twoBranchRepo mainBranch = false) ∧
    (GetUpstream trackingGit2 twoBranchRepo mainBranch =
        .ok (some ⟨⟨"refs/remotes/origin/main"⟩, BranchType.Remote⟩) ∧
      IsTrackingRemote trackingGit2 twoBranchRepo mainBranch = true) :=
  ⟨⟨rfl, rfl⟩, ⟨rfl, rfl⟩, ⟨rfl, rfl⟩⟩

/-- `"refs/heads/"` cannot straddle the end of a leading `"refs/remotes/"`. -/
theorem heads_infix_of_infix_remotes_append (s : List Char)
    (h : headsPrefix <:+: remotesPrefix ++ s) : headsPrefix <:+: s := by
  simp only [headsPrefix, remotesPrefix, String.toList, List.cons_append,
    List.nil_append] at h ⊢
  simpa [List.infix_cons_iff, List.cons_prefix_cons] using h

/-- When `"refs/heads/"` does not occur in `s`, `GetDisplayName` strips the leading
`"refs/remotes/"` of `"refs/remotes/" ++ s`. -/
theorem GetDisplayName_remotes_append (s : List Char) (h : ¬ headsPrefix <:+: s) :
    GetDisplayName (remotesPrefix ++ s) = s := by
  have hno : ¬ headsPrefix <:+: remotesPrefix ++ s :=
    fun hi => h (heads_infix_of_infix_remotes_append s hi)
  unfold GetDisplayName
  simp only [find_eq_none_of_absent _ _ hno]
  have h0 : find (remotesPrefix ++ s) remotesPrefix = some 0 := by
    simp [remotesPrefix, find]
  simp only [h0]
  simp [erase]

/-! ## The claims -/

/-- C1: `GetDisplayName` removes at most one occurrence, the first. If
`"refs/heads/"` occurs in `n`, the result is `n` without its first occurrence of
`"refs/heads/"`: the text before and after is kept, the length drops by 11.
Otherwise, if `"refs/remotes/"` occurs in `n`, the result is `n` without its first
occurrence of `"refs/remotes/"`. Otherwise the result is `n`. So
`"refs/heads/refs/heads/x"` gives `"refs/heads/x"` and `"refs/heads/main"` gives
`"main"`. -/
theorem GetDisplayName_removes_first_occurrence (n : List Char) :
    (headsPrefix <:+: n →
      ∃ pre post, n = pre ++ headsPrefix ++ post ∧
        (∀ j, j < pre.length → ¬ headsPrefix <+: n.drop j) ∧
        GetDisplayName n = pre ++ post ∧
        (GetDisplayName n).length + 11 = n.length) ∧
    (¬ headsPrefix <:+: n → remotesPrefix <:+: n →
      ∃ pre post, n = pre ++ remotesPrefix ++ post ∧
        (∀ j, j < pre.length → ¬ remotesPrefix <+: n.drop j) ∧
        GetDisplayName n = pre ++ post ∧
        (GetDisplayName n).length + 13 = n.length) ∧
    (¬ headsPrefix <:+: n → ¬ remotesPrefix <:+: n → GetDisplayName n = n) ∧
    GetDisplayName "refs/heads/refs/heads/x".toList = "refs/heads/x".toList ∧
    GetDisplayName "refs/heads/main".toList = "main".toList := by
  refine ⟨?_, ?_, ?_, by decide, by decide⟩
  · intro hh
    obtain ⟨i, hi⟩ := find_isSome_of_occurs headsPrefix n hh
    have hd : GetDisplayName n = erase n i headsPrefix.length := by
      unfold GetDisplayName
      simp only [hi]
    rw [hd]
    exact erase_find_spec headsPrefix n i hi
  · intro hh hr
    obtain ⟨i, hi⟩ := find_isSome_of_occurs remotesPrefix n hr
    have hd : GetDisplayName n = erase n i remotesPrefix.length := by
      unfold GetDisplayName
      simp only [find_eq_none_of_absent _ _ hh, hi]
    rw [hd]
    exact erase_find_spec remotesPrefix n i hi
  · intro hh hr
    unfold GetDisplayName
    simp only [find_eq_none_of_absent _ _ hh, find_eq_none_of_absent _ _ hr]

/-- C2, at the name `"refs/remotes/origin/refs/heads/x"`: the name is
`"refs/remotes/"` followed by `"origin/refs/heads/x"`, and `GetDisplayName` returns
`"refs/remotes/origin/x"`. The leading `"refs/remotes/"` stays and the later
`"refs/heads/"` is the one erased. -/
theorem GetDisplayName_remotes_then_heads :
    "refs/remotes/origin/refs/heads/x".toList = remotesPrefix ++ "origin/refs/heads/x".toList ∧
    GetDisplayName (remotesPrefix ++ "origin/refs/heads/x".toList) =
      "refs/remotes/origin/x".toList ∧
    GetDisplayName (remotesPrefix ++ "origin/refs/heads/x".toList) ≠
      "origin/refs/heads/x".toList := by
  decide

/-- C3, at the name `"refs/tags/refs/heads/v1"`: the name begins with neither
`"refs/heads/"` nor `"refs/remotes/"`, and `GetDisplayName` returns `"refs/tags/v1"`,
not the name. -/
theorem GetDisplayName_inner_occurrence :
    ¬ headsPrefix <+: "refs/tags/refs/heads/v1".toList ∧
    ¬ remotesPrefix <+: "refs/tags/refs/heads/v1".toList ∧
    GetDisplayName "refs/tags/refs/heads/v1".toList = "refs/tags/v1".toList ∧
    GetDisplayName "refs/tags/refs/heads/v1".toList ≠ "refs/tags/refs/heads/v1".toList := by
  decide

/-- C4, in a repository with no commit: the lookup of `HEAD` fails with not-found
and writes no id, and `CreateCommit` still hands `git_commit_create` the parent
count `1`, with a parent array whose one entry was never written. -/
theorem CreateCommit_unborn_HEAD_parent_count :
    git_reference_name_to_id emptyRepo "HEAD" = (GIT_ENOTFOUND, none) ∧
    CreateCommit.args linearGit2 emptyRepo someUser "first" =
      .ok ⟨"HEAD", some ⟨"Ada", "ada@example.org"⟩, some ⟨"Ada", "ada@example.org"⟩,
        "UTF-8", "first", some 0, 1, [none]⟩ := by
  refine ⟨rfl, rfl⟩

/-- C5, on the branch `main` (checked out at its tip `2`, history `2, 1` newest
first): `Reset` hands `git_reset` commit `1`, the last commit of the walk and the
oldest of the history. With `hard` false, and with `hard` true on checkout options
of version `1`, `main` points at `1` afterwards, no longer at its tip `2`. -/
theorem Reset_targets_oldest_commit :
    (GetCommits linearGit2 twoBranchRepo mainBranch).map (fun c => c.m_Commit) =
      [some ⟨2⟩, some ⟨1⟩] ∧
    (git_reference_name_to_id twoBranchRepo "refs/heads/main").2 = some 2 ∧
    Reset linearGit2 twoBranchRepo mainBranch false ⟨0, 0⟩ =
      linearGit2.git_reset twoBranchRepo (some ⟨1⟩) git_reset_t.GIT_RESET_MIXED none ∧
    Reset linearGit2 twoBranchRepo mainBranch true ⟨1, 0⟩ =
      linearGit2.git_reset twoBranchRepo (some ⟨1⟩) git_reset_t.GIT_RESET_HARD
        (some ⟨1, 0⟩) ∧
    (git_reference_name_to_id (Reset linearGit2 twoBranchRepo mainBranch false ⟨0, 0⟩)
      "refs/heads/main").2 = some 1 ∧
    (git_reference_name_to_id (Reset linearGit2 twoBranchRepo mainBranch true ⟨1, 0⟩)
      "refs/heads/main").2 = some 1 := by
  decide

/-- C6: when the history `GetCommits` returns is empty, `Reset` returns the
repository it was given, for both values of `hard`, whatever `git_reset` would do
and whatever the uninitialised options hold: no reset is issued. `Reset` has no
assertion and no error result. -/
theorem Reset_empty_history_noop (lib : Git2) (repo : Repository) (this : Branch)
    (hard : Bool) (opts : git_checkout_options) (h : GetCommits lib repo this = []) :
    Reset lib repo this hard opts = repo := by
  unfold Reset
  simp [h]

/-- The no-op at a freshly initialised repository, where the walk returns nothing. -/
theorem Reset_empty_history_noop_witness :
    GetCommits linearGit2 emptyRepo masterBranch = [] ∧
    Reset linearGit2 emptyRepo masterBranch true ⟨1, 0⟩ = emptyRepo ∧
    Reset linearGit2 emptyRepo masterBranch false ⟨1, 0⟩ = emptyRepo :=
  ⟨by decide,
   Reset_empty_history_noop linearGit2 emptyRepo masterBranch true ⟨1, 0⟩ (by decide),
   Reset_empty_history_noop linearGit2 emptyRepo masterBranch false ⟨1, 0⟩ (by decide)⟩

/-- C7, on the branch `dev` (tip `3`) while `main` (tip `2`) is checked out: the
walker of `GetCommits` starts at `2`, the commit of `HEAD`, and `dev.GetCommits()`
returns the history `2, 1` of `main`; the tip `3` of `dev` is not in it. Each
returned commit does carry `dev` as its branch. -/
theorem GetCommits_starts_at_HEAD :
    (git_reference_name_to_id twoBranchRepo devBranch.m_Reference.name).2 = some 3 ∧
    (GetCommits.walk twoBranchRepo).pushed = [2] ∧
    GetCommits linearGit2 twoBranchRepo devBranch =
      [⟨some ⟨2⟩, devBranch⟩, ⟨some ⟨1⟩, devBranch⟩] ∧
    GetCommits linearGit2 twoBranchRepo devBranch =
      (GetCommits linearGit2 twoBranchRepo mainBranch).map
        (fun c => { c with m_Branch := devBranch }) := by
  decide

/-- C8: `GetUpstream` returns the empty optional, with no assertion failure,
exactly when the upstream lookup answers not-found; it returns a branch exactly
when the lookup succeeds, and that branch wraps the reference the lookup wrote. -/
theorem GetUpstream_outcomes (lib : Git2) (repo : Repository) (this : Branch) :
    ((lib.git_branch_upstream repo this.m_Reference).1 = GIT_ENOTFOUND ↔
      GetUpstream lib repo this = .ok none) ∧
    ((lib.git_branch_upstream repo this.m_Reference).1 = GIT_ERROR_NONE ↔
      ∃ b, GetUpstream lib repo this = .ok (some b)) ∧
    ((lib.git_branch_upstream repo this.m_Reference).1 = GIT_ERROR_NONE →
      GetUpstream lib repo this =
        .ok (some ⟨(lib.git_branch_upstream repo this.m_Reference).2, BranchType.Remote⟩)) := by
  unfold GetUpstream MR_CORE_ASSERT
  rcases hr : lib.git_branch_upstream repo this.m_Reference with ⟨result, upstream⟩
  simp only [GIT_ENOTFOUND, GIT_ERROR_NONE, bind, Except.bind, pure, Except.pure]
  by_cases h3 : result = -3
  · subst h3
    simp
  · by_cases h0 : result = 0
    · subst h0
      simp
    · simp [h3, h0]

/-- C9: for every answer of the upstream lookup, `IsTrackingRemote` is true exactly
when `GetUpstream` on the same branch returns a branch, and it is false whenever
`GetUpstream` returns the empty optional. -/
theorem IsTrackingRemote_iff_GetUpstream (lib : Git2) (repo : Repository) (this : Branch) :
    (IsTrackingRemote lib repo this = true ↔
      ∃ b, GetUpstream lib repo this = .ok (some b)) ∧
    (GetUpstream lib repo this = .ok none → IsTrackingRemote lib repo this = false) := by
  unfold IsTrackingRemote GetUpstream MR_CORE_ASSERT
  rcases hr : lib.git_branch_upstream repo this.m_Reference with ⟨result, upstream⟩
  simp only [GIT_ENOTFOUND, GIT_ERROR_NONE, bind, Except.bind, pure, Except.pure]
  by_cases h3 : result = -3
  · subst h3
    simp
  · by_cases h0 : result = 0
    · subst h0
      simp
    · simp [h3, h0]

/-- C10, when `git_branch_is_head` fails with `-1`: `IsActive` returns true for
`dev`, a branch that is not checked out. -/
theorem IsActive_true_on_error :
    unreadableHeadGit2.git_branch_is_head twoBranchRepo devBranch.m_Reference = -1 ∧
    twoBranchRepo.HEAD ≠ devBranch.m_Reference.name ∧
    IsActive unreadableHeadGit2 twoBranchRepo devBranch = true := by
  decide

end Macarons
